import Mathlib

/-!
# Heart-Disease-Prediction: the form of `frontend/src/App.js`

A shallow embedding of the validation-and-submission workflow of the React
component `App`: the rule table `validationRules`, the validator
`validateField`, the event handlers `handleChange` and `handleSubmit`, the
derived flag `hasErrors` and the presentation component `ResultDisplay`.

JavaScript strings are modelled by `String` (sequences of Unicode scalar
values), `null` results by `Option.none`, and the operations of the language
itself that the component relies on (`String.prototype.trim`, `Number`,
`isNaN`, `<`, `>`, `Array.prototype.includes`, truthiness, `!==`, `===`) are
modelled from ECMAScript.  The asynchronous handler `handleSubmit` is split at
its `await` into `handleSubmit` and `handleSubmitSettle`; the outcome of the
request is an input of the second part.
-/

namespace HeartDisease

/-! ## JavaScript numbers -/

/-- A JavaScript Number value.  Finite values are carried as the rational they
denote; the two zeros are identified, which no operation of this component
(`<`, `>`, `Array.prototype.includes`, `===`, `JSON.stringify`) tells apart. -/
inductive JSNum where
  | nan : JSNum
  | negInf : JSNum
  | fin (q : ℚ) : JSNum
  | posInf : JSNum
  deriving DecidableEq

namespace JSNum

/-- The relational operator `a < b` on Numbers: false as soon as an operand is
`NaN`. -/
def lt : JSNum → JSNum → Bool
  | nan, _ => false
  | _, nan => false
  | negInf, negInf => false
  | negInf, _ => true
  | fin _, negInf => false
  | fin a, fin b => decide (a < b)
  | fin _, posInf => true
  | posInf, _ => false

/-- The relational operator `a > b`, that is `b < a`. -/
def gt (a b : JSNum) : Bool := lt b a

/-- The global function `isNaN` on a Number. -/
def isNaN : JSNum → Bool
  | nan => true
  | _ => false

end JSNum

/-! ## `String.prototype.trim` and `Number(string)` -/

/-- The code points of ECMAScript `WhiteSpace` and `LineTerminator`, which
`trim` strips and `StringToNumber` skips. -/
def isStrWhiteSpaceChar (c : Char) : Bool :=
  let n := c.toNat
  n == 0x09 || n == 0x0A || n == 0x0B || n == 0x0C || n == 0x0D || n == 0x20 ||
  n == 0xA0 || n == 0x1680 || (0x2000 ≤ n && n ≤ 0x200A) || n == 0x2028 ||
  n == 0x2029 || n == 0x202F || n == 0x205F || n == 0x3000 || n == 0xFEFF

/-- Removes leading white space. -/
def trimStartChars (cs : List Char) : List Char := cs.dropWhile isStrWhiteSpaceChar

/-- Removes leading and trailing white space. -/
def trimChars (cs : List Char) : List Char :=
  (trimStartChars (trimStartChars cs).reverse).reverse

/-- The method `String.prototype.trim`. -/
def trim (s : String) : String := ⟨trimChars s.data⟩

/-- The value of a digit in the given radix, if it is one. -/
def digitVal (radix : Nat) (c : Char) : Option Nat :=
  let n := c.toNat
  let v :=
    if 48 ≤ n ∧ n ≤ 57 then n - 48
    else if 97 ≤ n ∧ n ≤ 102 then n - 87
    else if 65 ≤ n ∧ n ≤ 70 then n - 55
    else 16
  if v < radix then some v else none

/-- Reads a whole list of digits in the given radix; the accumulator holds the
value read so far. -/
def readDigits (radix : Nat) : List Char → Nat → Option Nat
  | [], acc => some acc
  | c :: cs, acc =>
    match digitVal radix c with
    | some v => readDigits radix cs (acc * radix + v)
    | none => none

/-- A non-empty list of digits in the given radix, read as a numeral. -/
def readNumeral (radix : Nat) (cs : List Char) : Option Nat :=
  match cs with
  | [] => none
  | _ => readDigits radix cs 0

/-- Splits off the longest prefix of decimal digits. -/
def spanDigits : List Char → List Char × List Char
  | [] => ([], [])
  | c :: cs =>
    if (digitVal 10 c).isSome then
      let r := spanDigits cs
      (c :: r.1, r.2)
    else ([], c :: cs)

/-- The number of binary digits of `n`, computed by halving; the first
argument bounds the number of halvings. -/
def bitLength : Nat → Nat → Nat
  | 0, _ => 0
  | fuel + 1, n => if n = 0 then 0 else bitLength fuel (n / 2) + 1

/-- The position of the leading binary digit of `n`, that is `⌊log₂ n⌋` for
`0 < n`. -/
def log2Floor (n : Nat) : Nat := bitLength n n - 1

/-- The non-negative rational `n / d` (with `0 < d`) rounded to the nearest
binary64 value, ties to even, and overflowing to infinity: the magnitude of
"the Number value for" a mathematical value. -/
def roundBinary64 (n d : Nat) : JSNum :=
  if n = 0 then .fin 0
  else
    let e0 : Int := (log2Floor n : Int) - (log2Floor d : Int)
    let below : Bool :=
      if 0 ≤ e0 then decide (n < d * 2 ^ e0.toNat) else decide (n * 2 ^ (-e0).toNat < d)
    let e : Int := if below then e0 - 1 else e0
    let p : Int := max (e - 52) (-1074)
    let num : Nat := if 0 ≤ p then n else n * 2 ^ (-p).toNat
    let den : Nat := if 0 ≤ p then d * 2 ^ p.toNat else d
    let q := num / den
    let r := num % den
    let m := if den < 2 * r ∨ (2 * r = den ∧ q % 2 = 1) then q + 1 else q
    if 0 ≤ p then
      if 2 ^ 1024 ≤ m * 2 ^ p.toNat then .posInf else .fin (mkRat (m * 2 ^ p.toNat) 1)
    else .fin (mkRat m (2 ^ (-p).toNat))

/-- Negation of a Number. -/
def JSNum.neg : JSNum → JSNum
  | .nan => .nan
  | .negInf => .posInf
  | .fin q => .fin (-q)
  | .posInf => .negInf

/-- The exponent part of a decimal literal: nothing, or `e`/`E`, an optional
sign and at least one digit. -/
def readExponent : List Char → Option Int
  | [] => some 0
  | c :: cs =>
    if c = 'e' ∨ c = 'E' then
      match cs with
      | '+' :: ds => (readNumeral 10 ds).map Int.ofNat
      | '-' :: ds => (readNumeral 10 ds).map (fun k => - Int.ofNat k)
      | ds => (readNumeral 10 ds).map Int.ofNat
    else none

/-- The grammar `StrUnsignedDecimalLiteral`: `Infinity`, or digits with an
optional fraction and exponent, or a fraction starting with the point. -/
def readUnsignedDecimal (cs : List Char) : JSNum :=
  if cs = "Infinity".data then .posInf
  else
    let ip := spanDigits cs
    let fp : List Char × List Char :=
      match ip.2 with
      | '.' :: r => spanDigits r
      | r => ([], r)
    if ip.1 = [] ∧ fp.1 = [] then .nan
    else
      match readDigits 10 (ip.1 ++ fp.1) 0, readExponent fp.2 with
      | some m, some x =>
        let k : Int := x - (fp.1.length : Int)
        if 0 ≤ k then roundBinary64 (m * 10 ^ k.toNat) 1
        else roundBinary64 m (10 ^ (-k).toNat)
      | _, _ => .nan

/-- The grammar `StrNumericLiteral`: a binary, octal or hexadecimal integer
without sign, or a decimal literal with an optional sign. -/
def readNumericLiteral (cs : List Char) : JSNum :=
  let radixLiteral (radix : Nat) (ds : List Char) : JSNum :=
    match readNumeral radix ds with
    | some n => roundBinary64 n 1
    | none => .nan
  match cs with
  | '0' :: 'x' :: ds => radixLiteral 16 ds
  | '0' :: 'X' :: ds => radixLiteral 16 ds
  | '0' :: 'o' :: ds => radixLiteral 8 ds
  | '0' :: 'O' :: ds => radixLiteral 8 ds
  | '0' :: 'b' :: ds => radixLiteral 2 ds
  | '0' :: 'B' :: ds => radixLiteral 2 ds
  | '+' :: ds => readUnsignedDecimal ds
  | '-' :: ds => (readUnsignedDecimal ds).neg
  | ds => readUnsignedDecimal ds

/-- The function `Number` applied to a string (ECMAScript `StringToNumber`):
white space is stripped, the empty string is `0`, a string that is not a
`StrNumericLiteral` is `NaN`.  A literal is rounded correctly whatever its
length, as the engines in use do; ECMAScript also allows an approximation
after the twentieth significant digit. -/
def Number (s : String) : JSNum :=
  match trimChars s.data with
  | [] => .fin 0
  | cs => readNumericLiteral cs

/-! ## JavaScript values and objects -/

/-- The JavaScript values that reach the component state: `undefined`, and
the values `response.json()` can produce. -/
inductive JSVal where
  | undefined : JSVal
  | null : JSVal
  | bool (b : Bool) : JSVal
  | num (n : JSNum) : JSVal
  | str (s : String) : JSVal
  | arr (items : List JSVal) : JSVal
  | obj (props : List (String × JSVal)) : JSVal

/-- An object with string keys, as the list of its own properties in
insertion order. -/
abbrev Obj (α : Type) := List (String × α)

/-- The property `o[k]` of an object: `none` stands for `undefined`. -/
def getKey {α : Type} : Obj α → String → Option α
  | [], _ => none
  | (k', v) :: rest, k => if k' = k then some v else getKey rest k

/-- The object `{ ...o, [k]: v }` for a key that is not an array index: an
existing key keeps its place and takes the new value, a new key is added
last. -/
def setKey {α : Type} : Obj α → String → α → Obj α
  | [], k, v => [(k, v)]
  | (k', v') :: rest, k, v =>
    if k' = k then (k', v) :: rest else (k', v') :: setKey rest k v

/-- The keys of an object, `Object.keys(o)`. -/
def keys {α : Type} (o : Obj α) : List String := o.map Prod.fst

/-- The values of an object, `Object.values(o)`. -/
def values {α : Type} (o : Obj α) : List α := o.map Prod.snd

namespace JSVal

/-- Conversion to boolean (`ToBoolean`), as used by `if (v)` and `v && w`. -/
def truthy : JSVal → Bool
  | undefined => false
  | null => false
  | bool b => b
  | num n => !(n == .nan || n == .fin 0)
  | str s => !(s == "")
  | arr _ => true
  | obj _ => true

/-- The test `v !== null`. -/
def notNull : JSVal → Bool
  | null => false
  | _ => true

/-- The test `v === 1`. -/
def isOne : JSVal → Bool
  | num n => n == .fin 1
  | _ => false

/-- The property access `v.k` for a key that no prototype defines (here
`error` and `prediction`): `none` when the access throws a `TypeError`, which
it does on `null` and `undefined`; `undefined` when the value has no such
property of its own. -/
def getProp : JSVal → String → Option JSVal
  | undefined, _ => none
  | null, _ => none
  | obj props, k => some ((getKey props k).getD undefined)
  | _, _ => some undefined

end JSVal

/-! ## The validator -/

/-- A value of the table `validationRules`, or a member inherited from
`Object.prototype`: each of `min`, `max`, `allowed` and `message` may be
absent (`undefined`). -/
structure Rule where
  min : Option JSNum
  max : Option JSNum
  allowed : Option (List JSNum)
  message : Option String

/-- A range rule `{ min, max, message }`. -/
def Rule.range (lo hi : ℚ) (message : String) : Rule :=
  ⟨some (.fin lo), some (.fin hi), none, some message⟩

/-- An enumerated rule `{ allowed, message }`. -/
def Rule.enum (allowed : List ℚ) (message : String) : Rule :=
  ⟨none, none, some (allowed.map JSNum.fin), some message⟩

/-- The names that every object literal inherits from `Object.prototype`;
looking one of them up in `validationRules` gives a function or an object,
which is truthy and has none of `min`, `max`, `allowed`, `message`. -/
def inheritedNames : List String :=
  ["constructor", "hasOwnProperty", "isPrototypeOf", "propertyIsEnumerable",
   "toLocaleString", "toString", "valueOf", "__proto__", "__defineGetter__",
   "__defineSetter__", "__lookupGetter__", "__lookupSetter__"]

/-- The own properties of the object `validationRules`. -/
def validationRulesTable : Obj Rule :=
  [("age", Rule.range 1 120 "Age must be between 1 and 120."),
   ("sex", Rule.enum [0, 1] "Sex must be 0 (Female) or 1 (Male)."),
   ("cp", Rule.enum [0, 1, 2, 3] "Chest Pain type must be 0-3."),
   ("trestbps", Rule.range 80 220 "BP must be between 80 and 220."),
   ("chol", Rule.range 100 600 "Cholesterol must be 100-600."),
   ("fbs", Rule.enum [0, 1] "Fasting Blood Sugar must be 0 or 1."),
   ("restecg", Rule.enum [0, 1, 2] "Resting ECG must be 0, 1, or 2."),
   ("thalach", Rule.range 60 220 "Max Heart Rate must be 60-220."),
   ("exang", Rule.enum [0, 1] "Exercise Angina must be 0 or 1."),
   ("oldpeak", Rule.range 0 10 "Oldpeak must be between 0 and 10."),
   ("slope", Rule.enum [0, 1, 2] "Slope must be 0, 1, or 2."),
   ("ca", Rule.enum [0, 1, 2, 3] "CA must be between 0 and 3."),
   ("thal", Rule.enum [0, 1, 2, 3] "Thal must be between 0 and 3.")]

/-- The lookup `validationRules[name]`; `none` stands for `undefined`. -/
def validationRules (name : String) : Option Rule :=
  match getKey validationRulesTable name with
  | some rule => some rule
  | none => if name ∈ inheritedNames then some ⟨none, none, none, none⟩ else none

/-- The callback `validateField(name, value)`; `none` stands for `null`. -/
def validateField (name value : String) : Option String :=
  match validationRules name with
  | none => none
  | some rule =>
    if trim value = "" then none
    else
      let numValue := Number value
      if numValue.isNaN then some "Must be a valid number."
      else if (match rule.min with
        | some lo => numValue.lt lo
        | none => false) then rule.message
      else if (match rule.max with
        | some hi => numValue.gt hi
        | none => false) then rule.message
      else if (match rule.allowed with
        | some allowed => !(allowed.contains numValue)
        | none => false) then rule.message
      else none

/-! ## The component state and its handlers -/

/-- The five state variables of `App`. -/
structure State where
  formData : Obj String
  prediction : JSVal
  isLoading : Bool
  apiError : JSVal
  errors : Obj (Option String)

/-- The initial values given to `useState`. -/
def initialState : State where
  formData :=
    [("age", "58"), ("sex", "0"), ("cp", "0"), ("trestbps", "100"), ("chol", "248"),
     ("fbs", "0"), ("restecg", "0"), ("thalach", "122"), ("exang", "0"),
     ("oldpeak", "1"), ("slope", "1"), ("ca", "0"), ("thal", "2")]
  prediction := .null
  isLoading := false
  apiError := .str ""
  errors := []

/-- The list `inputFields`: the name and the placeholder of each input. -/
def inputFields : List (String × String) :=
  [("age", "Age"), ("sex", "Sex (1=M, 0=F)"),
   ("cp", "Chest Pain Type (0-3)"), ("trestbps", "Resting Blood Pressure"),
   ("chol", "Serum Cholesterol (mg/dl)"), ("fbs", "Fasting Blood Sugar > 120 (1=T, 0=F)"),
   ("restecg", "Resting ECG (0-2)"), ("thalach", "Max Heart Rate Achieved"),
   ("exang", "Exercise Induced Angina (1=Y, 0=N)"), ("oldpeak", "Oldpeak"),
   ("slope", "Slope of ST Segment"), ("ca", "Major Vessels Colored (0-3)"),
   ("thal", "Thal (1=N, 2=Fixed, 3=Rev)")]

/-- The thirteen known field names: the names of the rendered inputs, which
are the names `handleChange` is called with. -/
def fieldNames : List String := inputFields.map Prod.fst

/-- The handler `handleChange` on an event whose target has the given name and
value. -/
def handleChange (s : State) (name value : String) : State :=
  { s with
    formData := setKey s.formData name value
    errors := setKey s.errors name (validateField name value) }

/-- The flag `hasErrors`, `Object.values(errors).some(error => error !== null)`. -/
def hasErrors (s : State) : Bool := (values s.errors).any (fun error => error != none)

/-- The attribute `disabled` of the submit button. -/
def submitDisabled (s : State) : Bool := s.isLoading || hasErrors s

/-- The request handed to `fetch`; `body` is the object given to
`JSON.stringify`. -/
structure Request where
  url : String
  method : String
  headers : Obj String
  body : Obj JSNum

/-- What a handler does to the outside world. -/
inductive Effect where
  | alert (message : String) : Effect
  | fetch (request : Request) : Effect

/-- How the awaited `fetch` and `response.json()` end: the `fetch` promise
rejects, or it gives a response with its `ok` flag and the value its body
parses to (`none` when `response.json()` rejects). -/
inductive FetchOutcome where
  | rejected : FetchOutcome
  | response (ok : Bool) (json : Option JSVal) : FetchOutcome

/-- The message set by the `catch` block of `handleSubmit`. -/
def fetchFailedMessage : String :=
  "Failed to fetch prediction. Please ensure the backend server is running."

/-- The handler `handleSubmit` up to its `await`: the state after the
synchronous part and the effects issued, in order.  The call
`e.preventDefault()` acts on the event only and is left out. -/
def handleSubmit (s : State) : State × List Effect :=
  if (values s.errors).any (fun error => error != none) then
    (s, [Effect.alert "Please fix the errors before submitting."])
  else
    let body : Obj JSNum := s.formData.map (fun kv => (kv.1, Number kv.2))
    ({ s with prediction := .null, apiError := .str "", isLoading := true },
     [Effect.fetch ⟨"http://127.0.0.1:5000/predict", "POST",
        [("Content-Type", "application/json")], body⟩])

/-- The rest of `handleSubmit`, resumed with the outcome of the request in the
state current at that moment: the `try` block after the `await`, the `catch`
block and the `finally` block.  It issues no effect. -/
def handleSubmitSettle (s : State) (outcome : FetchOutcome) : State :=
  let failed : State := { s with apiError := .str fetchFailedMessage }
  let settled : State :=
    match outcome with
    | .rejected => failed
    | .response false _ => failed
    | .response true none => failed
    | .response true (some data) =>
      match data.getProp "error" with
      | none => failed
      | some error =>
        if error.truthy then { s with apiError := error }
        else
          match data.getProp "prediction" with
          | none => failed
          | some prediction => { s with prediction := prediction }
  { settled with isLoading := false }

/-- One submission from state `s` that is not blocked: the synchronous part of
`handleSubmit`, the field edits made while the request is in flight, and the
settlement with the outcome of the request. -/
def submitAndSettle (s : State) (edits : List (String × String))
    (outcome : FetchOutcome) : State :=
  handleSubmitSettle
    (edits.foldl (fun st edit => handleChange st edit.1 edit.2) (handleSubmit s).1) outcome

/-- The events of the form. -/
inductive Event where
  | change (name value : String) : Event
  | submit : Event
  | settle (outcome : FetchOutcome) : Event

/-- The state after one event. -/
def step (s : State) : Event → State
  | .change name value => handleChange s name value
  | .submit => (handleSubmit s).1
  | .settle outcome => handleSubmitSettle s outcome

/-- The state after a sequence of events, from the initial state. -/
def runEvents (events : List Event) : State := events.foldl step initialState

/-- A change event is on a known field name; the other events always are
possible. -/
def Event.known : Event → Bool
  | .change name _ => decide (name ∈ fieldNames)
  | _ => true

/-- Every change event of the sequence is on a known field name. -/
def knownChanges (events : List Event) : Bool := events.all Event.known

/-- The entry `errors[field]` read as an error: a missing entry (`undefined`)
counts as no error, like `null`. -/
def errorOf (s : State) (field : String) : Option String :=
  (getKey s.errors field).getD none

/-- Some known field has a current value that `validateField` rejects. -/
def someFieldInvalid (s : State) : Prop :=
  ∃ field ∈ fieldNames, ∃ value,
    getKey s.formData field = some value ∧ validateField field value ≠ none

/-- The invariant of the form: `formData` has exactly the known fields,
`errors` has at most one entry per known field, and each entry of `errors`
is the verdict of `validateField` on the current value of its field. -/
def FormInvariant (s : State) : Prop :=
  keys s.formData = fieldNames ∧
  (keys s.errors).Nodup ∧
  (∀ k ∈ keys s.errors, k ∈ fieldNames) ∧
  ∀ field ∈ fieldNames, ∃ value,
    getKey s.formData field = some value ∧ errorOf s field = validateField field value

/-! ## The component `ResultDisplay` -/

/-- The box that shows the prediction. -/
structure ResultBox where
  className : String
  heading : String
  text : String

/-- The children of the wrapper of `ResultDisplay`. -/
inductive Node where
  | errorBox (message : JSVal) : Node
  | resultBox (box : ResultBox) : Node
  | text (s : String) : Node

/-- What `ResultDisplay` renders: the conditional classes of its wrapper and
the children that appear in it. -/
structure ResultView where
  className : String
  children : List Node

/-- What React renders for `{v && node}`: the node when `v` is truthy, and
otherwise the falsy value itself, which shows as text only for a number. -/
def renderAnd (v : JSVal) (node : Node) : List Node :=
  if v.truthy then [node]
  else
    match v with
    | .num .nan => [Node.text "NaN"]
    | .num _ => [Node.text "0"]
    | _ => []

/-- The component `ResultDisplay({ prediction, apiError })`. -/
def ResultDisplay (prediction apiError : JSVal) : ResultView where
  className :=
    if prediction.notNull || apiError.truthy then "opacity-100 translate-y-0"
    else "opacity-0 -translate-y-4 h-0"
  children :=
    renderAnd apiError (Node.errorBox apiError) ++
    (if prediction.notNull then
      [Node.resultBox
        ⟨if prediction.isOne then "bg-red-500/20 text-red-300 border-red-500"
          else "bg-green-500/20 text-green-300 border-green-500",
         if prediction.isOne then "Heart Disease Detected" else "No Heart Disease Detected",
         if prediction.isOne then
           "Further consultation with a specialist is highly recommended."
         else "The model indicates a low probability of heart disease."⟩]
    else [])

/-- The result boxes among the children of a rendered `ResultDisplay`. -/
def ResultView.resultBoxes (view : ResultView) : List ResultBox :=
  view.children.filterMap fun node =>
    match node with
    | .resultBox box => some box
    | _ => none

/-- The messages of the error boxes among the children of a rendered
`ResultDisplay`. -/
def ResultView.errorBoxes (view : ResultView) : List JSVal :=
  view.children.filterMap fun node =>
    match node with
    | .errorBox message => some message
    | _ => none

/-! ## Facts about `trim`, `Number` and objects -/

theorem JSNum.lt_fin (a b : ℚ) : JSNum.lt (.fin a) (.fin b) = decide (a < b) := rfl

theorem JSNum.gt_fin (a b : ℚ) : JSNum.gt (.fin a) (.fin b) = decide (b < a) := rfl

theorem trimStartChars_eq_nil (cs : List Char) :
    trimStartChars cs = [] ↔ ∀ c ∈ cs, isStrWhiteSpaceChar c = true := by
  simp [trimStartChars, List.dropWhile_eq_nil_iff]

theorem trimChars_eq_nil (cs : List Char) :
    trimChars cs = [] ↔ ∀ c ∈ cs, isStrWhiteSpaceChar c = true := by
  unfold trimChars
  rw [List.reverse_eq_nil_iff, trimStartChars_eq_nil]
  constructor
  · intro h
    by_contra hcs
    have hne : trimStartChars cs ≠ [] := fun h0 => hcs ((trimStartChars_eq_nil cs).1 h0)
    have hhead := List.head_dropWhile_not isStrWhiteSpaceChar cs hne
    have hmem : (List.dropWhile isStrWhiteSpaceChar cs).head hne ∈
        (trimStartChars cs).reverse := by
      rw [List.mem_reverse]
      exact List.head_mem hne
    rw [h _ hmem] at hhead
    exact absurd hhead (by simp)
  · intro h c hc
    rw [List.mem_reverse, (trimStartChars_eq_nil cs).2 h] at hc
    exact absurd hc (List.not_mem_nil c)

theorem trim_eq_empty (raw : String) :
    trim raw = "" ↔ ∀ c ∈ raw.data, isStrWhiteSpaceChar c = true := by
  rw [← trimChars_eq_nil]
  unfold trim
  constructor
  · intro h
    exact congrArg String.data h
  · intro h
    rw [h]

theorem getKey_setKey {α : Type} (o : Obj α) (k k' : String) (v : α) :
    getKey (setKey o k v) k' = if k' = k then some v else getKey o k' := by
  induction o with
  | nil =>
    by_cases h : k = k'
    · simp [setKey, getKey, h]
    · have h' : ¬ k' = k := fun e => h e.symm
      simp [setKey, getKey, h, h']
  | cons kv rest ih =>
    obtain ⟨k0, v0⟩ := kv
    by_cases h0 : k0 = k
    · subst h0
      by_cases h1 : k0 = k'
      · simp [setKey, getKey, h1]
      · have h1' : ¬ k' = k0 := fun e => h1 e.symm
        simp [setKey, getKey, h1, h1']
    · by_cases h1 : k0 = k'
      · subst h1
        simp [setKey, getKey, h0]
      · simp [setKey, getKey, h0, h1, ih]

theorem mem_keys_setKey {α : Type} (o : Obj α) (k k' : String) (v : α) :
    k' ∈ keys (setKey o k v) ↔ k' ∈ keys o ∨ k' = k := by
  induction o with
  | nil => simp [setKey, keys]
  | cons kv rest ih =>
    obtain ⟨k0, v0⟩ := kv
    by_cases h0 : k0 = k
    · subst h0
      simp only [setKey, if_true, keys, List.map_cons, List.mem_cons]
      tauto
    · have ih' : k' ∈ List.map Prod.fst (setKey rest k v) ↔
          k' ∈ List.map Prod.fst rest ∨ k' = k := ih
      simp only [setKey, h0, if_false, keys, List.map_cons, List.mem_cons, ih']
      tauto

theorem keys_setKey_of_mem {α : Type} (o : Obj α) (k : String) (v : α)
    (h : k ∈ keys o) : keys (setKey o k v) = keys o := by
  induction o with
  | nil => simp [keys] at h
  | cons kv rest ih =>
    obtain ⟨k0, v0⟩ := kv
    by_cases h0 : k0 = k
    · subst h0
      simp [setKey, keys]
    · have hrest : k ∈ keys rest := by
        simp only [keys, List.map_cons, List.mem_cons] at h
        rcases h with h | h
        · exact absurd h.symm h0
        · exact h
      have ih' : List.map Prod.fst (setKey rest k v) = List.map Prod.fst rest := ih hrest
      simp [setKey, h0, keys, ih']

theorem nodup_keys_setKey {α : Type} (o : Obj α) (k : String) (v : α)
    (h : (keys o).Nodup) : (keys (setKey o k v)).Nodup := by
  induction o with
  | nil => simp [setKey, keys]
  | cons kv rest ih =>
    obtain ⟨k0, v0⟩ := kv
    have hcons : k0 ∉ keys rest ∧ (keys rest).Nodup := by
      simpa [keys] using h
    by_cases h0 : k0 = k
    · subst h0
      simpa [setKey, keys] using h
    · have hnot : k0 ∉ keys (setKey rest k v) := by
        rw [mem_keys_setKey]
        rintro (h1 | h1)
        · exact hcons.1 h1
        · exact h0 h1
      have hnd := ih hcons.2
      simp only [setKey, h0, if_false, keys, List.map_cons, List.nodup_cons]
      exact ⟨hnot, hnd⟩

theorem getKey_of_mem {α : Type} (o : Obj α) (h : (keys o).Nodup) (k : String) (v : α)
    (hm : (k, v) ∈ o) : getKey o k = some v := by
  induction o with
  | nil => simp at hm
  | cons kv rest ih =>
    obtain ⟨k0, v0⟩ := kv
    have hcons : k0 ∉ keys rest ∧ (keys rest).Nodup := by
      simpa [keys] using h
    rcases List.mem_cons.1 hm with heq | hrest
    · cases heq
      simp [getKey]
    · have hk : k ∈ keys rest := List.mem_map_of_mem Prod.fst hrest
      have hne : ¬ k0 = k := fun e => hcons.1 (e ▸ hk)
      simp [getKey, hne, ih hcons.2 hrest]

theorem mem_of_getKey {α : Type} (o : Obj α) (k : String) (v : α)
    (h : getKey o k = some v) : (k, v) ∈ o := by
  induction o with
  | nil => simp [getKey] at h
  | cons kv rest ih =>
    obtain ⟨k0, v0⟩ := kv
    by_cases h0 : k0 = k
    · subst h0
      simp [getKey] at h
      simp [h]
    · simp only [getKey, h0, if_false] at h
      exact List.mem_cons_of_mem _ (ih h)

theorem getKey_eq_none {α : Type} (o : Obj α) (k : String) (h : k ∉ keys o) :
    getKey o k = none := by
  cases hg : getKey o k with
  | none => rfl
  | some v => exact absurd (List.mem_map_of_mem Prod.fst (mem_of_getKey o k v hg)) h

/-! ## The validator: range rules, enumerated rules, empty and non-numeric input -/

theorem validateField_range_rule (name raw msg : String) (lo hi v : ℚ)
    (hrule : validationRules name = some (Rule.range lo hi msg))
    (hraw : trim raw ≠ "") (hv : Number raw = .fin v) :
    validateField name raw = if v < lo ∨ hi < v then some msg else none := by
  unfold validateField
  rw [hrule]
  simp only [hraw, if_false, hv, Rule.range, JSNum.isNaN, JSNum.lt_fin, JSNum.gt_fin]
  by_cases h1 : v < lo
  · simp [h1]
  · by_cases h2 : hi < v
    · simp [h1, h2]
    · simp [h1, h2]

theorem validateField_range_rule_inf (name raw msg : String) (lo hi : ℚ)
    (hrule : validationRules name = some (Rule.range lo hi msg))
    (hraw : trim raw ≠ "") (hv : Number raw = .negInf ∨ Number raw = .posInf) :
    validateField name raw = some msg := by
  unfold validateField
  rw [hrule]
  rcases hv with hv | hv <;>
    simp [hraw, hv, Rule.range, JSNum.isNaN, JSNum.lt, JSNum.gt]

theorem validateField_enum_rule (name raw msg : String) (allowed : List ℚ) (v : ℚ)
    (hrule : validationRules name = some (Rule.enum allowed msg))
    (hraw : trim raw ≠ "") (hv : Number raw = .fin v) :
    validateField name raw = if v ∈ allowed then none else some msg := by
  unfold validateField
  rw [hrule]
  simp only [hraw, if_false, hv, Rule.enum, JSNum.isNaN]
  by_cases h : v ∈ allowed
  · simp [h]
  · simp [h]

theorem validateField_enum_rule_inf (name raw msg : String) (allowed : List ℚ)
    (hrule : validationRules name = some (Rule.enum allowed msg))
    (hraw : trim raw ≠ "") (hv : Number raw = .negInf ∨ Number raw = .posInf) :
    validateField name raw = some msg := by
  unfold validateField
  rw [hrule]
  rcases hv with hv | hv <;>
    simp [hraw, hv, Rule.enum, JSNum.isNaN]

/-- C1: for each of the five fields with a range rule (age 1..120, trestbps
80..220, chol 100..600, thalach 60..220, oldpeak 0..10) and every raw value
that is not empty after trimming and that `Number` parses to a number `v`,
`validateField` returns the message configured for the field when `v < min`
or `v > max` (the two infinities included), and `null` when
`min ≤ v ≤ max`, both bounds included. -/
theorem validateField_range (name : String) (lo hi : ℚ)
    (hfield : (name, lo, hi) ∈
      [("age", (1 : ℚ), (120 : ℚ)), ("trestbps", 80, 220), ("chol", 100, 600),
       ("thalach", 60, 220), ("oldpeak", 0, 10)])
    (raw : String) (hraw : trim raw ≠ "") :
    ∃ msg, validationRules name = some (Rule.range lo hi msg) ∧
      (∀ v : ℚ, Number raw = .fin v → (v < lo ∨ hi < v) →
        validateField name raw = some msg) ∧
      (Number raw = .negInf ∨ Number raw = .posInf → validateField name raw = some msg) ∧
      (∀ v : ℚ, Number raw = .fin v → lo ≤ v → v ≤ hi → validateField name raw = none) := by
  have key : ∃ msg, validationRules name = some (Rule.range lo hi msg) := by
    simp only [List.mem_cons, Prod.mk.injEq, List.mem_singleton, List.not_mem_nil,
      or_false] at hfield
    rcases hfield with ⟨rfl, rfl, rfl⟩ | ⟨rfl, rfl, rfl⟩ | ⟨rfl, rfl, rfl⟩ |
      ⟨rfl, rfl, rfl⟩ | ⟨rfl, rfl, rfl⟩
    · exact ⟨_, rfl⟩
    · exact ⟨_, rfl⟩
    · exact ⟨_, rfl⟩
    · exact ⟨_, rfl⟩
    · exact ⟨_, rfl⟩
  obtain ⟨msg, hrule⟩ := key
  refine ⟨msg, hrule, ?_, ?_, ?_⟩
  · intro v hv hout
    rw [validateField_range_rule name raw msg lo hi v hrule hraw hv, if_pos hout]
  · intro hinf
    exact validateField_range_rule_inf name raw msg lo hi hrule hraw hinf
  · intro v hv h1 h2
    rw [validateField_range_rule name raw msg lo hi v hrule hraw hv, if_neg]
    rintro (h | h)
    · exact absurd h1 (not_le.2 h)
    · exact absurd h2 (not_le.2 h)

/-- Witness of C1 for the age field: `"58"` is accepted, `"0"` and `"121"` are
rejected with the message of the field. -/
theorem validateField_range_witness :
    validateField "age" "58" = none ∧
    validateField "age" "0" = some "Age must be between 1 and 120." ∧
    validateField "age" "121" = some "Age must be between 1 and 120." := by
  obtain ⟨msg, hrule, hout, _, hin⟩ :=
    validateField_range "age" 1 120 (by simp) "58" (by decide)
  obtain ⟨msg0, hrule0, hout0, _, _⟩ :=
    validateField_range "age" 1 120 (by simp) "0" (by decide)
  obtain ⟨msg1, hrule1, hout1, _, _⟩ :=
    validateField_range "age" 1 120 (by simp) "121" (by decide)
  have e0 : msg0 = "Age must be between 1 and 120." := by
    have h := hrule0
    rw [show validationRules "age" =
      some (Rule.range 1 120 "Age must be between 1 and 120.") from rfl] at h
    simp only [Rule.range, Option.some.injEq, Rule.mk.injEq] at h
    exact h.2.2.2.symm
  have e1 : msg1 = "Age must be between 1 and 120." := by
    have h := hrule1
    rw [show validationRules "age" =
      some (Rule.range 1 120 "Age must be between 1 and 120.") from rfl] at h
    simp only [Rule.range, Option.some.injEq, Rule.mk.injEq] at h
    exact h.2.2.2.symm
  refine ⟨hin 58 (by decide) (by norm_num) (by norm_num), ?_, ?_⟩
  · rw [← e0]
    exact hout0 0 (by decide) (Or.inl (by norm_num))
  · rw [← e1]
    exact hout1 121 (by decide) (Or.inr (by norm_num))

/-- C2: for each of the eight fields with an enumerated rule (sex, fbs, exang
in {0,1}; restecg, slope in {0,1,2}; cp, ca, thal in {0,1,2,3}) and every raw
value that is not empty after trimming and that `Number` parses to a number
`v`, `validateField` returns the message configured for the field when `v` is
not in the allowed set (a non-integer or an infinity never is), and `null`
when `v` is in the allowed set. -/
theorem validateField_enum (name : String) (allowed : List ℚ)
    (hfield : (name, allowed) ∈
      [("sex", [(0 : ℚ), 1]), ("fbs", [0, 1]), ("exang", [0, 1]),
       ("restecg", [0, 1, 2]), ("slope", [0, 1, 2]),
       ("cp", [0, 1, 2, 3]), ("ca", [0, 1, 2, 3]), ("thal", [0, 1, 2, 3])])
    (raw : String) (hraw : trim raw ≠ "") :
    ∃ msg, validationRules name = some (Rule.enum allowed msg) ∧
      (∀ v : ℚ, Number raw = .fin v → v ∉ allowed → validateField name raw = some msg) ∧
      (∀ v : ℚ, Number raw = .fin v → (∀ k : ℤ, v ≠ k) → validateField name raw = some msg) ∧
      (Number raw = .negInf ∨ Number raw = .posInf → validateField name raw = some msg) ∧
      (∀ v : ℚ, Number raw = .fin v → v ∈ allowed → validateField name raw = none) := by
  have key : (∃ msg, validationRules name = some (Rule.enum allowed msg)) ∧
      ∀ v ∈ allowed, ∃ k : ℤ, v = k := by
    simp only [List.mem_cons, Prod.mk.injEq, List.mem_singleton, List.not_mem_nil,
      or_false] at hfield
    have h2 : ∀ v ∈ [(0 : ℚ), 1], ∃ k : ℤ, v = k := by
      intro v hv
      simp only [List.mem_cons, List.mem_singleton, List.not_mem_nil, or_false] at hv
      rcases hv with rfl | rfl
      · exact ⟨0, by norm_num⟩
      · exact ⟨1, by norm_num⟩
    have h3 : ∀ v ∈ [(0 : ℚ), 1, 2], ∃ k : ℤ, v = k := by
      intro v hv
      simp only [List.mem_cons, List.mem_singleton, List.not_mem_nil, or_false] at hv
      rcases hv with rfl | rfl | rfl
      · exact ⟨0, by norm_num⟩
      · exact ⟨1, by norm_num⟩
      · exact ⟨2, by norm_num⟩
    have h4 : ∀ v ∈ [(0 : ℚ), 1, 2, 3], ∃ k : ℤ, v = k := by
      intro v hv
      simp only [List.mem_cons, List.mem_singleton, List.not_mem_nil, or_false] at hv
      rcases hv with rfl | rfl | rfl | rfl
      · exact ⟨0, by norm_num⟩
      · exact ⟨1, by norm_num⟩
      · exact ⟨2, by norm_num⟩
      · exact ⟨3, by norm_num⟩
    rcases hfield with ⟨rfl, rfl⟩ | ⟨rfl, rfl⟩ | ⟨rfl, rfl⟩ | ⟨rfl, rfl⟩ | ⟨rfl, rfl⟩ |
      ⟨rfl, rfl⟩ | ⟨rfl, rfl⟩ | ⟨rfl, rfl⟩
    · exact ⟨⟨_, rfl⟩, h2⟩
    · exact ⟨⟨_, rfl⟩, h2⟩
    · exact ⟨⟨_, rfl⟩, h2⟩
    · exact ⟨⟨_, rfl⟩, h3⟩
    · exact ⟨⟨_, rfl⟩, h3⟩
    · exact ⟨⟨_, rfl⟩, h4⟩
    · exact ⟨⟨_, rfl⟩, h4⟩
    · exact ⟨⟨_, rfl⟩, h4⟩
  obtain ⟨⟨msg, hrule⟩, hint⟩ := key
  refine ⟨msg, hrule, ?_, ?_, ?_, ?_⟩
  · intro v hv hout
    rw [validateField_enum_rule name raw msg allowed v hrule hraw hv, if_neg hout]
  · intro v hv hnot
    rw [validateField_enum_rule name raw msg allowed v hrule hraw hv, if_neg]
    intro hmem
    obtain ⟨k, hk⟩ := hint v hmem
    exact hnot k hk
  · intro hinf
    exact validateField_enum_rule_inf name raw msg allowed hrule hraw hinf
  · intro v hv hmem
    rw [validateField_enum_rule name raw msg allowed v hrule hraw hv, if_pos hmem]

/-- Witness of C2 for the sex field: `"1"` is accepted, `"2"` and the
non-integer `"1.5"` are rejected with the message of the field. -/
theorem validateField_enum_witness :
    validateField "sex" "1" = none ∧
    validateField "sex" "2" = some "Sex must be 0 (Female) or 1 (Male)." ∧
    validateField "sex" "1.5" = some "Sex must be 0 (Female) or 1 (Male)." := by
  have hsex : validationRules "sex" =
      some (Rule.enum [0, 1] "Sex must be 0 (Female) or 1 (Male).") := rfl
  have hmsg : ∀ msg, validationRules "sex" = some (Rule.enum [0, 1] msg) →
      msg = "Sex must be 0 (Female) or 1 (Male)." := by
    intro msg h
    rw [hsex] at h
    simp only [Rule.enum, Option.some.injEq, Rule.mk.injEq] at h
    exact h.2.2.2.symm
  obtain ⟨msg, hrule, _, _, _, hin⟩ :=
    validateField_enum "sex" [0, 1] (by simp) "1" (by decide)
  obtain ⟨msg2, hrule2, hout2, _, _, _⟩ :=
    validateField_enum "sex" [0, 1] (by simp) "2" (by decide)
  obtain ⟨msg3, hrule3, hout3, _, _, _⟩ :=
    validateField_enum "sex" [0, 1] (by simp) "1.5" (by decide)
  refine ⟨hin 1 (by decide) (by simp), ?_, ?_⟩
  · rw [← hmsg msg2 hrule2]
    exact hout2 2 (by decide) (by norm_num)
  · rw [← hmsg msg3 hrule3]
    exact hout3 (mkRat 3 2) (by decide) (by decide)

/-- C3: for every field name, known or not, and every raw value whose trimmed
form is the empty string, `validateField` returns `null`; the raw values with
an empty trimmed form are the empty string and the strings made of white space
only. -/
theorem validateField_empty (name raw : String) :
    (trim raw = "" → validateField name raw = none) ∧
    (trim raw = "" ↔ ∀ c ∈ raw.data, isStrWhiteSpaceChar c = true) := by
  refine ⟨?_, trim_eq_empty raw⟩
  intro h
  unfold validateField
  cases validationRules name with
  | none => rfl
  | some rule => simp [h]

/-- Witness of C3: a blank value of the age field, and the empty value of a
name that is no field. -/
theorem validateField_empty_witness :
    validateField "age" " \t " = none ∧ validateField "height" "" = none :=
  ⟨(validateField_empty "age" " \t ").1 (by decide),
   (validateField_empty "height" "").1 (by decide)⟩

/-- C4: for each of the thirteen known fields and every raw value that is not
empty after trimming and that `Number` parses to `NaN`, `validateField`
returns the fixed message `"Must be a valid number."`, which is neither `null`
nor the message of the field's rule. -/
theorem validateField_not_a_number (name : String) (hname : name ∈ fieldNames)
    (raw : String) (hraw : trim raw ≠ "") (hnan : Number raw = .nan) :
    validateField name raw = some "Must be a valid number." ∧
    validateField name raw ≠ none ∧
    ∀ rule, validationRules name = some rule → validateField name raw ≠ rule.message := by
  have hres : ∀ rule, validationRules name = some rule →
      validateField name raw = some "Must be a valid number." := by
    intro rule hrule
    unfold validateField
    rw [hrule]
    simp [hraw, hnan, JSNum.isNaN]
  have hrules : ∃ rule, validationRules name = some rule ∧
      rule.message ≠ some "Must be a valid number." := by
    simp only [fieldNames, inputFields, List.map_cons, List.map_nil, List.mem_cons,
      List.mem_singleton, List.not_mem_nil, or_false] at hname
    rcases hname with rfl | rfl | rfl | rfl | rfl | rfl | rfl | rfl | rfl | rfl | rfl |
      rfl | rfl
    all_goals exact ⟨_, rfl, by decide⟩
  obtain ⟨rule, hrule, hmsg⟩ := hrules
  have h := hres rule hrule
  refine ⟨h, ?_, ?_⟩
  · rw [h]
    exact Option.some_ne_none _
  · intro rule2 hrule2
    rw [hrule] at hrule2
    cases hrule2
    rw [h]
    exact fun e => hmsg e.symm

/-- Witness of C4: `"abc"` in the age field. -/
theorem validateField_not_a_number_witness :
    validateField "age" "abc" = some "Must be a valid number." :=
  (validateField_not_a_number "age" (by decide) "abc" (by decide) (by decide)).1

/-! ## Submission -/

theorem hasErrors_eq_true (s : State) :
    hasErrors s = true ↔ ∃ error ∈ values s.errors, error ≠ none := by
  simp [hasErrors, List.any_eq_true]

theorem hasErrors_eq_false (s : State) :
    hasErrors s = false ↔ ∀ error ∈ values s.errors, error = none := by
  rw [← Bool.not_eq_true, hasErrors_eq_true]
  constructor
  · intro h error hmem
    by_contra hne
    exact h ⟨error, hmem, hne⟩
  · rintro h ⟨error, hmem, hne⟩
    exact hne (h error hmem)

theorem handleSubmit_blocked (s : State) (h : hasErrors s = true) :
    handleSubmit s = (s, [Effect.alert "Please fix the errors before submitting."]) := by
  unfold hasErrors at h
  simp [handleSubmit, h]

theorem handleSubmit_passed (s : State) (h : hasErrors s = false) :
    handleSubmit s =
      ({ s with prediction := .null, apiError := .str "", isLoading := true },
       [Effect.fetch ⟨"http://127.0.0.1:5000/predict", "POST",
          [("Content-Type", "application/json")],
          s.formData.map (fun kv => (kv.1, Number kv.2))⟩]) := by
  unfold hasErrors at h
  simp [handleSubmit, h]

theorem foldl_handleChange_fields (edits : List (String × String)) (s : State) :
    (edits.foldl (fun st edit => handleChange st edit.1 edit.2) s).prediction = s.prediction ∧
    (edits.foldl (fun st edit => handleChange st edit.1 edit.2) s).apiError = s.apiError ∧
    (edits.foldl (fun st edit => handleChange st edit.1 edit.2) s).isLoading = s.isLoading := by
  induction edits generalizing s with
  | nil => exact ⟨rfl, rfl, rfl⟩
  | cons edit rest ih =>
    rw [List.foldl_cons]
    have h := ih (handleChange s edit.1 edit.2)
    exact h

theorem prediction_in_flight (s : State) (edits : List (String × String))
    (h : hasErrors s = false) :
    (edits.foldl (fun st edit => handleChange st edit.1 edit.2) (handleSubmit s).1).prediction =
      .null := by
  rw [(foldl_handleChange_fields edits (handleSubmit s).1).1, handleSubmit_passed s h]

theorem handleSubmitSettle_isLoading (s : State) (outcome : FetchOutcome) :
    (handleSubmitSettle s outcome).isLoading = false := rfl

/-- C5: `handleSubmit` is gated on the error state.  In a state where some
entry of `errors` is not `null` it issues no request (its only effect is the
alert) and leaves the whole state unchanged; in a state where no entry of
`errors` is not `null` it issues exactly one request, a `POST` to the
prediction endpoint. -/
theorem handleSubmit_gate (s : State) :
    ((∃ error ∈ values s.errors, error ≠ none) →
      handleSubmit s = (s, [Effect.alert "Please fix the errors before submitting."])) ∧
    ((∀ error ∈ values s.errors, error = none) →
      ∃ request, (handleSubmit s).2 = [Effect.fetch request] ∧
        request.method = "POST" ∧ request.url = "http://127.0.0.1:5000/predict") := by
  constructor
  · intro h
    exact handleSubmit_blocked s ((hasErrors_eq_true s).2 h)
  · intro h
    rw [handleSubmit_passed s ((hasErrors_eq_false s).2 h)]
    exact ⟨_, rfl, rfl, rfl⟩

/-- Witness of C5: after age is set to `"0"` the submission is blocked; in the
initial state it issues one `POST`. -/
theorem handleSubmit_gate_witness :
    handleSubmit (handleChange initialState "age" "0") =
      (handleChange initialState "age" "0",
       [Effect.alert "Please fix the errors before submitting."]) ∧
    ∃ request, (handleSubmit initialState).2 = [Effect.fetch request] ∧
      request.method = "POST" ∧ request.url = "http://127.0.0.1:5000/predict" :=
  ⟨(handleSubmit_gate (handleChange initialState "age" "0")).1
      ⟨some "Age must be between 1 and 120.", by decide, by decide⟩,
   (handleSubmit_gate initialState).2 (by decide)⟩

/-- C6, amended: for every non-empty string `X` and every submission that
passes the gate, when the request succeeds with a body whose `error` is `X`,
the settled state has `apiError` equal to `X` and `prediction` equal to
`null`, whatever fields were edited while the request was in flight. -/
theorem submit_server_error (s : State) (edits : List (String × String)) (data : JSVal)
    (X : String) (hgate : hasErrors s = false)
    (hbody : data.getProp "error" = some (.str X)) (hX : X ≠ "") :
    (submitAndSettle s edits (.response true (some data))).apiError = .str X ∧
    (submitAndSettle s edits (.response true (some data))).prediction = .null := by
  have hp := prediction_in_flight s edits hgate
  unfold submitAndSettle handleSubmitSettle
  simp only [hbody, JSVal.truthy]
  simp [hX, hp]

/-- Witness of C6, amended: the body `{ "error": "model not loaded" }` after a
submission from the initial state. -/
theorem submit_server_error_witness :
    (submitAndSettle initialState []
      (.response true (some (.obj [("error", .str "model not loaded")])))).apiError =
      .str "model not loaded" ∧
    (submitAndSettle initialState []
      (.response true (some (.obj [("error", .str "model not loaded")])))).prediction =
      .null :=
  submit_server_error initialState [] (.obj [("error", .str "model not loaded")])
    "model not loaded" (by decide) rfl (by decide)

/-- Counterexample to C6 as stated: with `X` the empty string, the body
`{ "error": "" }` fails the test `if (data.error)`, the `else` branch stores
`data.prediction`, which is `undefined`, and `ResultDisplay` then shows the
"No Heart Disease Detected" box. -/
theorem submit_server_error_empty :
    hasErrors initialState = false ∧
    (submitAndSettle initialState []
      (.response true (some (.obj [("error", .str "")])))).prediction = .undefined ∧
    (submitAndSettle initialState []
      (.response true (some (.obj [("error", .str "")])))).prediction ≠ .null ∧
    (ResultDisplay
      (submitAndSettle initialState []
        (.response true (some (.obj [("error", .str "")])))).prediction
      (submitAndSettle initialState []
        (.response true (some (.obj [("error", .str "")])))).apiError).resultBoxes.map
        ResultBox.heading = ["No Heart Disease Detected"] := by
  refine ⟨by decide, rfl, ?_, rfl⟩
  intro h
  have h2 : JSVal.undefined = JSVal.null := h
  cases h2

/-- C7: for every submission that passes the gate and whose request fails (the
`fetch` promise rejects, or the response is not `ok`, whatever its body), the
settled state has `apiError` equal to the fixed message, `prediction` equal to
`null` and `isLoading` false; and `isLoading` is false after every settlement,
whatever the state and the outcome. -/
theorem submit_failure (s : State) (edits : List (String × String))
    (outcome : FetchOutcome) (hgate : hasErrors s = false)
    (hfail : outcome = .rejected ∨ ∃ body, outcome = .response false body) :
    (submitAndSettle s edits outcome).apiError =
      .str "Failed to fetch prediction. Please ensure the backend server is running." ∧
    (submitAndSettle s edits outcome).prediction = .null ∧
    (submitAndSettle s edits outcome).isLoading = false ∧
    ∀ (s2 : State) (edits2 : List (String × String)) (outcome2 : FetchOutcome),
      (submitAndSettle s2 edits2 outcome2).isLoading = false ∧
      (handleSubmitSettle s2 outcome2).isLoading = false := by
  have hp := prediction_in_flight s edits hgate
  refine ⟨?_, ?_, rfl, fun _ _ _ => ⟨rfl, rfl⟩⟩
  · rcases hfail with rfl | ⟨body, rfl⟩ <;> rfl
  · rcases hfail with rfl | ⟨body, rfl⟩
    · exact hp
    · exact hp

/-- Witness of C7: a rejected `fetch` and a 500 response with a JSON body, both
after a submission from the initial state. -/
theorem submit_failure_witness :
    (submitAndSettle initialState [] .rejected).apiError =
      .str "Failed to fetch prediction. Please ensure the backend server is running." ∧
    (submitAndSettle initialState [("age", "61")]
      (.response false (some (.obj [("prediction", .num (.fin 1))])))).prediction = .null :=
  ⟨(submit_failure initialState [] .rejected (by decide) (Or.inl rfl)).1,
   (submit_failure initialState [("age", "61")]
      (.response false (some (.obj [("prediction", .num (.fin 1))]))) (by decide)
      (Or.inr ⟨_, rfl⟩)).2.1⟩

/-! ## The result display -/

/-- C8: `ResultDisplay` as a function of `prediction` and `apiError`.  It
shows the "Heart Disease Detected" box when `prediction` is `1`, the
"No Heart Disease Detected" box when `prediction` is `0` and for every other
value that is not `null`; it shows the error box exactly when `apiError` is
truthy, which for a string means not empty; and when `prediction` is `null`
and `apiError` is the empty string it renders the hidden wrapper with no
child. -/
theorem ResultDisplay_branches (prediction apiError : JSVal) :
    (prediction = .num (.fin 1) →
      (ResultDisplay prediction apiError).resultBoxes.map ResultBox.heading =
        ["Heart Disease Detected"]) ∧
    (prediction = .num (.fin 0) →
      (ResultDisplay prediction apiError).resultBoxes.map ResultBox.heading =
        ["No Heart Disease Detected"]) ∧
    (prediction ≠ .null → prediction ≠ .num (.fin 1) →
      (ResultDisplay prediction apiError).resultBoxes.map ResultBox.heading =
        ["No Heart Disease Detected"]) ∧
    (prediction = .null → (ResultDisplay prediction apiError).resultBoxes = []) ∧
    ((ResultDisplay prediction apiError).errorBoxes =
      if apiError.truthy then [apiError] else []) ∧
    (∀ X : String, apiError = .str X →
      ((ResultDisplay prediction apiError).errorBoxes ≠ [] ↔ X ≠ "")) ∧
    (prediction = .null → apiError = .str "" →
      ResultDisplay prediction apiError = ⟨"opacity-0 -translate-y-4 h-0", []⟩) := by
  have herr : (ResultDisplay prediction apiError).errorBoxes =
      if apiError.truthy then [apiError] else [] := by
    unfold ResultView.errorBoxes ResultDisplay renderAnd
    by_cases ht : apiError.truthy = true
    · by_cases hp : prediction.notNull = true <;> simp [ht, hp]
    · by_cases hp : prediction.notNull = true <;> cases apiError with
      | num n => cases n <;> simp [ht, hp]
      | _ => simp [ht, hp]
  have hbox : ∀ b : Bool, prediction.notNull = true → prediction.isOne = b →
      (ResultDisplay prediction apiError).resultBoxes.map ResultBox.heading =
        [if b then "Heart Disease Detected" else "No Heart Disease Detected"] := by
    intro b hn hb
    unfold ResultView.resultBoxes ResultDisplay renderAnd
    by_cases ht : apiError.truthy = true
    · cases b <;> simp [ht, hn, hb]
    · cases apiError with
      | num n => cases n <;> cases b <;> simp [ht, hn, hb]
      | _ => cases b <;> simp [ht, hn, hb]
  refine ⟨?_, ?_, ?_, ?_, herr, ?_, ?_⟩
  · rintro rfl
    exact hbox true rfl (by decide)
  · rintro rfl
    exact hbox false rfl (by decide)
  · intro hnull hone
    have hn : prediction.notNull = true := by
      cases prediction <;> first | rfl | exact absurd rfl hnull
    have hb : prediction.isOne = false := by
      cases prediction with
      | num n =>
        by_cases h1 : n = .fin 1
        · exact absurd (congrArg JSVal.num h1) hone
        · simp [JSVal.isOne, h1]
      | _ => rfl
    exact hbox false hn hb
  · rintro rfl
    unfold ResultView.resultBoxes ResultDisplay renderAnd
    by_cases ht : apiError.truthy = true
    · simp [ht, JSVal.notNull]
    · cases apiError with
      | num n => cases n <;> simp [ht, JSVal.notNull]
      | _ => simp [ht, JSVal.notNull]
  · rintro X rfl
    rw [herr]
    by_cases hX : X = ""
    · simp [JSVal.truthy, hX]
    · simp [JSVal.truthy, hX]
  · rintro rfl rfl
    rfl

/-- Witness of C8: the two branches, and the empty display of the initial
state. -/
theorem ResultDisplay_branches_witness :
    (ResultDisplay (.num (.fin 1)) (.str "")).resultBoxes.map ResultBox.heading =
      ["Heart Disease Detected"] ∧
    (ResultDisplay (.num (.fin 0)) (.str "")).resultBoxes.map ResultBox.heading =
      ["No Heart Disease Detected"] ∧
    ResultDisplay initialState.prediction initialState.apiError =
      ⟨"opacity-0 -translate-y-4 h-0", []⟩ :=
  ⟨(ResultDisplay_branches (.num (.fin 1)) (.str "")).1 rfl,
   (ResultDisplay_branches (.num (.fin 0)) (.str "")).2.1 rfl,
   (ResultDisplay_branches initialState.prediction initialState.apiError).2.2.2.2.2.2 rfl rfl⟩

/-! ## The key sets of `formData` and `errors`, and the error state -/

theorem step_formData_errors_of_not_change (s : State) :
    (handleSubmit s).1.formData = s.formData ∧ (handleSubmit s).1.errors = s.errors ∧
    ∀ outcome, (handleSubmitSettle s outcome).formData = s.formData ∧
      (handleSubmitSettle s outcome).errors = s.errors := by
  refine ⟨?_, ?_, ?_⟩
  · unfold handleSubmit
    split <;> rfl
  · unfold handleSubmit
    split <;> rfl
  · intro outcome
    unfold handleSubmitSettle
    constructor <;> (simp only []; split <;> first | rfl | (split <;> first | rfl | (split <;> first | rfl | (split <;> rfl))))

theorem formInvariant_initialState : FormInvariant initialState := by
  refine ⟨rfl, by decide, by decide, ?_⟩
  have h : ∀ field ∈ fieldNames,
      (getKey initialState.formData field).map (validateField field) =
        some (errorOf initialState field) := by decide
  intro field hfield
  have hf := h field hfield
  cases hg : getKey initialState.formData field with
  | none => rw [hg] at hf; cases hf
  | some value =>
    rw [hg] at hf
    refine ⟨value, rfl, ?_⟩
    simp only [Option.map_some', Option.some.injEq] at hf
    exact hf.symm

theorem formInvariant_handleChange (s : State) (name value : String)
    (hname : name ∈ fieldNames) (h : FormInvariant s) :
    FormInvariant (handleChange s name value) := by
  obtain ⟨hkeys, hnodup, hsub, hfresh⟩ := h
  refine ⟨?_, ?_, ?_, ?_⟩
  · show keys (setKey s.formData name value) = fieldNames
    rw [keys_setKey_of_mem _ _ _ (hkeys ▸ hname), hkeys]
  · exact nodup_keys_setKey _ _ _ hnodup
  · intro k hk
    rcases (mem_keys_setKey s.errors name k _).1 hk with h1 | h1
    · exact hsub k h1
    · exact h1 ▸ hname
  · intro field hfield
    by_cases hf : field = name
    · subst hf
      refine ⟨value, ?_, ?_⟩
      · show getKey (setKey s.formData field value) field = some value
        rw [getKey_setKey, if_pos rfl]
      · show (getKey (setKey s.errors field (validateField field value)) field).getD none =
          validateField field value
        rw [getKey_setKey, if_pos rfl]
        rfl
    · obtain ⟨v, hv, he⟩ := hfresh field hfield
      refine ⟨v, ?_, ?_⟩
      · show getKey (setKey s.formData name value) field = some v
        rw [getKey_setKey, if_neg hf, hv]
      · show (getKey (setKey s.errors name (validateField name value)) field).getD none =
          validateField field v
        rw [getKey_setKey, if_neg hf]
        exact he

theorem formInvariant_step (s : State) (event : Event) (hknown : event.known = true)
    (h : FormInvariant s) : FormInvariant (step s event) := by
  cases event with
  | change name value =>
    have hname : name ∈ fieldNames := by simpa [Event.known] using hknown
    exact formInvariant_handleChange s name value hname h
  | submit =>
    obtain ⟨h1, h2, _⟩ := step_formData_errors_of_not_change s
    unfold FormInvariant errorOf at *
    show _ ∧ _ ∧ _ ∧ _
    simp only [step, h1, h2]
    exact h
  | settle outcome =>
    obtain ⟨_, _, h3⟩ := step_formData_errors_of_not_change s
    obtain ⟨h1, h2⟩ := h3 outcome
    unfold FormInvariant errorOf at *
    show _ ∧ _ ∧ _ ∧ _
    simp only [step, h1, h2]
    exact h

theorem formInvariant_foldl (events : List Event) (s : State)
    (hknown : knownChanges events = true) (h : FormInvariant s) :
    FormInvariant (events.foldl step s) := by
  induction events generalizing s with
  | nil => exact h
  | cons event rest ih =>
    have hk : event.known = true ∧ knownChanges rest = true := by
      simpa [knownChanges] using hknown
    rw [List.foldl_cons]
    exact ih (step s event) hk.2 (formInvariant_step s event hk.1 h)

theorem mem_keys_errors_foldl (events : List Event) (s : State) (k : String) :
    k ∈ keys (events.foldl step s).errors ↔
      k ∈ keys s.errors ∨ ∃ value, Event.change k value ∈ events := by
  induction events generalizing s with
  | nil => simp
  | cons event rest ih =>
    rw [List.foldl_cons, ih]
    cases event with
    | change name value =>
      have hk : k ∈ keys (step s (.change name value)).errors ↔
          k ∈ keys s.errors ∨ k = name := mem_keys_setKey s.errors name k _
      rw [hk]
      constructor
      · rintro ((h | h) | ⟨v, hv⟩)
        · exact Or.inl h
        · exact Or.inr ⟨value, h ▸ List.mem_cons_self _ _⟩
        · exact Or.inr ⟨v, List.mem_cons_of_mem _ hv⟩
      · rintro (h | ⟨v, hv⟩)
        · exact Or.inl (Or.inl h)
        · rcases List.mem_cons.1 hv with heq | hrest
          · cases heq
            exact Or.inl (Or.inr rfl)
          · exact Or.inr ⟨v, hrest⟩
    | submit =>
      have he : (step s .submit).errors = s.errors :=
        (step_formData_errors_of_not_change s).2.1
      rw [he]
      constructor
      · rintro (h | ⟨v, hv⟩)
        · exact Or.inl h
        · exact Or.inr ⟨v, List.mem_cons_of_mem _ hv⟩
      · rintro (h | ⟨v, hv⟩)
        · exact Or.inl h
        · rcases List.mem_cons.1 hv with heq | hrest
          · cases heq
          · exact Or.inr ⟨v, hrest⟩
    | settle outcome =>
      have he : (step s (.settle outcome)).errors = s.errors :=
        ((step_formData_errors_of_not_change s).2.2 outcome).2
      rw [he]
      constructor
      · rintro (h | ⟨v, hv⟩)
        · exact Or.inl h
        · exact Or.inr ⟨v, List.mem_cons_of_mem _ hv⟩
      · rintro (h | ⟨v, hv⟩)
        · exact Or.inl h
        · rcases List.mem_cons.1 hv with heq | hrest
          · cases heq
          · exact Or.inr ⟨v, hrest⟩

theorem hasErrors_iff_someFieldInvalid (s : State) (h : FormInvariant s) :
    hasErrors s = true ↔ someFieldInvalid s := by
  obtain ⟨_, hnodup, hsub, hfresh⟩ := h
  rw [hasErrors_eq_true]
  constructor
  · rintro ⟨error, hmem, hne⟩
    obtain ⟨⟨k, e⟩, hkv, rfl⟩ := List.mem_map.1 hmem
    have hk : k ∈ fieldNames := hsub k (List.mem_map_of_mem Prod.fst hkv)
    obtain ⟨v, hv, he⟩ := hfresh k hk
    refine ⟨k, hk, v, hv, ?_⟩
    rw [← he]
    unfold errorOf
    rw [getKey_of_mem s.errors hnodup k e hkv]
    exact hne
  · rintro ⟨field, hfield, v, hv, hne⟩
    obtain ⟨v2, hv2, he⟩ := hfresh field hfield
    rw [hv] at hv2
    cases hv2
    rw [← he] at hne
    unfold errorOf at hne
    cases hg : getKey s.errors field with
    | none =>
      rw [hg] at hne
      exact absurd rfl hne
    | some e =>
      rw [hg] at hne
      exact ⟨e, List.mem_map_of_mem Prod.snd (mem_of_getKey s.errors field e hg), hne⟩

/-- C9, amended: in every state reached from the initial state by changes on
known field names, submissions and settlements, the keys of `formData` are
exactly the thirteen known field names, one entry each and in the order of
the inputs, while `errors` has no repeated key and its keys are exactly the
fields that `handleChange` has been called on so far, all of them known
fields. -/
theorem keys_reachable (events : List Event) (hknown : knownChanges events = true) :
    keys (runEvents events).formData = fieldNames ∧
    fieldNames.Nodup ∧ fieldNames.length = 13 ∧
    (keys (runEvents events).errors).Nodup ∧
    (∀ k, k ∈ keys (runEvents events).errors ↔ ∃ value, Event.change k value ∈ events) ∧
    (∀ k ∈ keys (runEvents events).errors, k ∈ keys (runEvents events).formData) := by
  obtain ⟨hkeys, hnodup, hsub, _⟩ :=
    formInvariant_foldl events initialState hknown formInvariant_initialState
  refine ⟨hkeys, by decide, rfl, hnodup, ?_, ?_⟩
  · intro k
    have h := mem_keys_errors_foldl events initialState k
    have h0 : k ∉ keys initialState.errors := List.not_mem_nil k
    unfold runEvents
    rw [h]
    constructor
    · rintro (h1 | h1)
      · exact absurd h1 h0
      · exact h1
    · exact Or.inr
  · intro k hk
    have hk2 : k ∈ fieldNames := hsub k hk
    have hkeys2 : keys (runEvents events).formData = fieldNames := hkeys
    rw [hkeys2]
    exact hk2

/-- Witness of C9, amended: after a rejected age, a blocked submission and a
cholesterol edit, `errors` holds the two edited fields and `formData` all
thirteen. -/
theorem keys_reachable_witness :
    keys (runEvents [.change "age" "0", .submit, .change "chol" "300"]).formData =
      fieldNames ∧
    (keys (runEvents [.change "age" "0", .submit, .change "chol" "300"]).errors).Nodup :=
  ⟨(keys_reachable [.change "age" "0", .submit, .change "chol" "300"] (by decide)).1,
   (keys_reachable [.change "age" "0", .submit, .change "chol" "300"] (by decide)).2.2.2.1⟩

/-- Counterexample to C9 as stated: in the initial state, reached by the empty
sequence of events, `errors` is the empty object while `formData` has the
thirteen fields, so the two key sets differ; and after one change `errors`
has one key. -/
theorem keys_differ_initially :
    knownChanges [] = true ∧
    keys (runEvents []).errors = [] ∧
    keys (runEvents []).formData = fieldNames ∧
    ¬ (∀ k, k ∈ keys (runEvents []).errors ↔ k ∈ keys (runEvents []).formData) ∧
    keys (runEvents [.change "age" "61"]).errors = ["age"] := by
  refine ⟨rfl, rfl, rfl, ?_, by decide⟩
  intro h
  have hmem : "age" ∈ keys (runEvents []).formData := by decide
  exact absurd ((h "age").2 hmem) (by decide)

/-- C10: the error state never goes stale.  In every state reached from the
initial state by changes on known field names, submissions and settlements,
the entry of `errors` for each known field, a missing entry counting as no
error, is `validateField` applied to the field and its current value in
`formData`; hence `hasErrors` holds exactly when the current value of some
field fails validation, and so does the `disabled` attribute of the submit
button while `isLoading` is false. -/
theorem errors_never_stale (events : List Event) (hknown : knownChanges events = true) :
    (∀ field ∈ fieldNames, ∃ value,
      getKey (runEvents events).formData field = some value ∧
      errorOf (runEvents events) field = validateField field value) ∧
    (hasErrors (runEvents events) = true ↔ someFieldInvalid (runEvents events)) ∧
    ((runEvents events).isLoading = false →
      (submitDisabled (runEvents events) = true ↔ someFieldInvalid (runEvents events))) := by
  have hinv := formInvariant_foldl events initialState hknown formInvariant_initialState
  have hiff := hasErrors_iff_someFieldInvalid (events.foldl step initialState) hinv
  refine ⟨hinv.2.2.2, hiff, ?_⟩
  intro hload
  unfold submitDisabled
  rw [hload, Bool.false_or]
  exact hiff

/-- Witness of C10: once age is edited to `"0"` the button is disabled, and
after it is edited again to `"61"` it is enabled. -/
theorem errors_never_stale_witness :
    (hasErrors (runEvents [.change "age" "0"]) = true ↔
      someFieldInvalid (runEvents [.change "age" "0"])) ∧
    (submitDisabled (runEvents [.change "age" "0", .change "age" "61"]) = true ↔
      someFieldInvalid (runEvents [.change "age" "0", .change "age" "61"])) :=
  ⟨(errors_never_stale [.change "age" "0"] (by decide)).2.1,
   (errors_never_stale [.change "age" "0", .change "age" "61"] (by decide)).2.2 (by decide)⟩

end HeartDisease
